import Mathlib

/-!
Verification of the IF482 time-telegram generator (src/src/if482.cpp).

The development shallowly embeds the two components of the file:

* the telegram encoder `IF482_Out` (if482.cpp lines 129-157), and
* the pulse-synchronized scheduler loop `if482_loop` (lines 159-200),
  embedded as a per-edge cycle function `if482_cycle` plus `if482_run`
  over a list of edge notifications.

Machine integers: `TickType_t` on the ESP32 port of FreeRTOS is a
32-bit unsigned integer, so tick arithmetic is carried out modulo
`W32 = 2^32`.  C's `snprintf(dst, size, ...)` writes at most `size - 1`
characters of the formatted string; the embedding renders the full
formatted string and then truncates with `List.take (size - 1)`,
exactly as `snprintf` does.
-/

set_option autoImplicit false

/-- 2^32, the modulus of `TickType_t` / `uint32_t` arithmetic. -/
def W32 : Nat := 4294967296

/-- Unsigned 32-bit subtraction `a - b` (wraps modulo 2^32), as performed
on `TickType_t` and on `int` values printed through an unsigned conversion
specifier.  Faithful for `a, b < 2^32`. -/
def u32sub (a b : Nat) : Nat := (a + W32 - b) % W32

/-- `timeStatus_t` of the Arduino Time library, queried by `IF482_Out` via
`timeStatus()`: `timeNotSet` (no valid time), `timeNeedsSync` (time set but
last sync attempt failed), `timeSet` (time set and synced).  The spec calls
these Unknown, StaleButSet and Confident. -/
inductive TimeStatus
  | timeNotSet
  | timeNeedsSync
  | timeSet
deriving DecidableEq

/-- Broken-down local calendar time, the result of `myTZ.toLocal` followed by
the Time library accessors `year`/`month`/`day`/`weekday`/`hour`/`minute`/
`second` applied to the same `time_t`.  `wday` is 1..7 with Sunday = 1,
`year` is the full Gregorian year (e.g. 2016). -/
structure Tm where
  year : Nat
  month : Nat
  day : Nat
  wday : Nat
  hour : Nat
  minute : Nat
  second : Nat
deriving DecidableEq

/-- Decimal digits of `n`, as printed by `printf`'s `%u` (at least one
digit, no padding). -/
def decDigits (n : Nat) : List Char := Nat.toDigits 10 n

/-- `%0<width>u`: decimal rendering of `n`, zero-padded on the left to at
least `width` characters, never truncated (wider values keep all digits). -/
def fmtPad (width n : Nat) : List Char :=
  List.replicate (width - (decDigits n).length) '0' ++ decDigits n

/-- The monitoring character chosen by the `switch (timeStatus())` in
`IF482_Out` (if482.cpp lines 134-144). -/
def monChar : TimeStatus → Char
  | .timeSet => 'A'
  | .timeNeedsSync => 'M'
  | .timeNotSet => '?'

/-- `IF482_FRAME_SIZE` (if482.cpp line 91). -/
def IF482_FRAME_SIZE : Nat := 17

/-- The date/time body formatted by
`snprintf(buf, sizeof(buf), "%02u%02u%02u%1u%02u%02u%02u", year(t) - 2000,
month(t), day(t), weekday(t), hour(t), minute(t), second(t))`
(if482.cpp lines 148-149).  `year(t) - 2000` is an `int` printed through
`%02u`, i.e. reinterpreted as unsigned 32-bit, hence `u32sub`. -/
def IF482_fields (t : Tm) : List Char :=
  fmtPad 2 (u32sub t.year 2000) ++ fmtPad 2 t.month ++ fmtPad 2 t.day ++
    fmtPad 1 t.wday ++ fmtPad 2 t.hour ++ fmtPad 2 t.minute ++
      fmtPad 2 t.second

/-- The contents of `buf` after the `if`/`else` of if482.cpp lines 147-151:
the formatted fields when time is confident (`timeSet` or `timeNeedsSync`),
the sentinel `"000000F000000"` otherwise.  `buf` is `char[14]`, so
`snprintf` keeps at most 13 characters. -/
def IF482_buf (t : Tm) (st : TimeStatus) : List Char :=
  if st = .timeSet ∨ st = .timeNeedsSync then (IF482_fields t).take 13
  else "000000F000000".data.take 13

/-- The string returned by `IF482_Out` (if482.cpp lines 129-157): the result
of `snprintf(out, sizeof(out), "O%cL%s\r", mon, buf)` with
`out : char[IF482_FRAME_SIZE] = char[17]`, so at most 16 characters of the
formatted telegram survive. -/
def IF482_Out (t : Tm) (st : TimeStatus) : List Char :=
  ('O' :: monChar st :: 'L' :: (IF482_buf t st ++ ['\r'])).take
    (IF482_FRAME_SIZE - 1)

/-- `IF482_PULSE_DURATION` (if482.cpp line 92): 1000 ms, the nominal 1 Hz
pulse period.  `PPS` is the configured pulse period in ms/ticks (line
94-101); the loop compares it against this constant to pick a clock
scale. -/
def IF482_PULSE_DURATION : Nat := 1000

/-- The shot time recorded at arming
(`const TickType_t shotTime = xTaskGetTickCount() - startTime - timeOffset`,
if482.cpp line 172), as a function of `alignElapsed` (tick count elapsed
between worker start and the return of `sync_clock`, i.e.
`xTaskGetTickCount() - startTime`) and `timeOffset`
(`pdMS_TO_TICKS(IF482_OFFSET)`).  `TickType_t` arithmetic, modulo 2^32. -/
def shotTimeOf (alignElapsed timeOffset : Nat) : Nat :=
  u32sub alignElapsed timeOffset

/-- The delay increment `shotTime - PPS` passed to `vTaskDelayUntil` in the
downclocking branch (if482.cpp lines 196-197), computed in unsigned
`TickType_t` arithmetic. -/
def downclockDelay (shot pps : Nat) : Nat := u32sub shot pps

/-- One telegram emission of the worker: the tick at which
`IF482.print(IF482_Out(now() + 1))` runs, and the `time_t` second passed to
the encoder (`now()` sampled at that tick, plus one). -/
structure Emission where
  tick : Nat
  sec : Nat
deriving DecidableEq

/-- The upclocking loop
`for (uint8_t i = 1; i <= PPS / IF482_PULSE_DURATION; i++) {
   vTaskDelayUntil(&wakeTime, shotTime); IF482.print(IF482_Out(now() + 1)); }`
(if482.cpp lines 189-192), run for `k` iterations from baseline tick `w`.
`vTaskDelayUntil(&wakeTime, shotTime)` advances `wakeTime` by `shotTime`
(modulo 2^32) and blocks until that absolute tick, so iteration `i` emits
at tick `(w + i * shotTime) mod 2^32`.  `nowAt` maps a tick to the value of
`now()` at that tick.  Returns the emissions and the final `wakeTime`.
(The C loop counter is `uint8_t`; the model is faithful for
`k = PPS / 1000 < 256`, which covers every realistic configuration.) -/
def upclockIters (shot : Nat) (nowAt : Nat → Nat) :
    Nat → Nat → List Emission × Nat
  | 0, w => ([], w)
  | k + 1, w =>
    let w1 := (w + shot) % W32
    let rest := upclockIters shot nowAt k w1
    (⟨w1, nowAt w1 + 1⟩ :: rest.1, rest.2)

/-- One iteration of the `for (;;)` loop of `if482_loop` (if482.cpp lines
175-199) after `xTaskNotifyWait` has stored the notified edge tick into
`wakeTime`.  The three branches mirror the preprocessor selection at lines
183, 188 and 194:
* `PPS == IF482_PULSE_DURATION`: wait until `wakeTime + shotTime`, emit;
* `PPS > IF482_PULSE_DURATION` (upclocking): `PPS / IF482_PULSE_DURATION`
  repetitions of wait-then-emit;
* `PPS < IF482_PULSE_DURATION` (downclocking): emit immediately at the
  edge, then wait until `wakeTime + (shotTime - PPS)` (unsigned).
Returns the emissions of the cycle and the final `wakeTime` (the tick at
which the worker re-enters `xTaskNotifyWait`; the next notification
overwrites it). -/
def if482_cycle (pps shot : Nat) (nowAt : Nat → Nat) (edge : Nat) :
    List Emission × Nat :=
  if pps = IF482_PULSE_DURATION then
    ([⟨(edge + shot) % W32, nowAt ((edge + shot) % W32) + 1⟩],
      (edge + shot) % W32)
  else if IF482_PULSE_DURATION < pps then
    upclockIters shot nowAt (pps / IF482_PULSE_DURATION) edge
  else
    ([⟨edge, nowAt edge + 1⟩], (edge + downclockDelay shot pps) % W32)

/-- The worker over a sequence of edge notifications: each notification
delivers the edge's tick into `wakeTime` and runs one cycle; the emissions
of all cycles in order. -/
def if482_run (pps shot : Nat) (nowAt : Nat → Nat) (edges : List Nat) :
    List Emission :=
  (edges.map (fun e => (if482_cycle pps shot nowAt e).1)).flatten

/-- Result of `if482_init` (if482.cpp lines 107-127): either a returned
status code, or an `assert` abort (no return). -/
inductive InitResult
  | ok (rc : Int)
  | assertFailed
deriving DecidableEq

/-- `if482_init` (if482.cpp lines 107-127) as a function of whether
`xTaskCreatePinnedToCore` produced a task handle: `assert(ClockTask)`
aborts when it did not; otherwise the function runs to `return 1`. -/
def if482_init (taskCreated : Bool) : InitResult :=
  if taskCreated then InitResult.ok 1 else InitResult.assertFailed

/-- C1: the claim states that for a valid time and a set status the encoder
emits exactly 17 bytes ending in a carriage return.  Evaluating the code at
the example time 2016-08-06 17:04:00 (Saturday, weekday 7) with status
`timeSet` shows the emitted telegram is the 16-byte string
"OAL1608067170400": the final `snprintf` into the 17-byte `out` buffer
truncates the carriage return, contradicting the 17-byte CR-terminated
format documented in the file's own header. -/
theorem C1_missing_cr :
    IF482_Out ⟨2016, 8, 6, 7, 17, 4, 0⟩ TimeStatus.timeSet
      = "OAL1608067170400".data ∧
    (IF482_Out ⟨2016, 8, 6, 7, 17, 4, 0⟩ TimeStatus.timeSet).length = 16 ∧
    (IF482_Out ⟨2016, 8, 6, 7, 17, 4, 0⟩ TimeStatus.timeSet).getLast?
      ≠ some '\r' := by
  decide

/-- C2: the claim states that for status Unknown (`timeNotSet`) the output
is the 17-byte string "O?L000000F000000\r" independent of the input time.
The code is independent of the input time, but the final `snprintf`
truncates the carriage return: for every time the output is the 16-byte
string "O?L000000F000000". -/
theorem C2_unknown_sentinel (t : Tm) :
    IF482_Out t TimeStatus.timeNotSet = "O?L000000F000000".data ∧
    (IF482_Out t TimeStatus.timeNotSet).length = 16 := by
  have hb : IF482_buf t TimeStatus.timeNotSet = "000000F000000".data := by
    simp [IF482_buf]
  rw [IF482_Out, hb]
  decide

/-- C6: the claim states that the year field is rendered modulo 100, so the
target year 2100 (the +1 s projection of 2099-12-31 23:59:59) renders as
"00".  The code instead prints `year(t) - 2000` through `%02u`, which at
2100 yields the three characters "100"; the 13-char `buf` and 16-char `out`
truncations then garble the whole frame.  At target time
2100-01-01 00:00:00 (Friday, weekday 6) with status `timeSet` the telegram
is "OAL1000101600000" and the year field (bytes 4-5) reads "10", not
"00". -/
theorem C6_year2100 :
    IF482_Out ⟨2100, 1, 1, 6, 0, 0, 0⟩ TimeStatus.timeSet
      = "OAL1000101600000".data ∧
    ((IF482_Out ⟨2100, 1, 1, 6, 0, 0, 0⟩ TimeStatus.timeSet).drop 3).take 2
      = ['1', '0'] ∧
    ['1', '0'] ≠ ['0', '0'] := by
  decide

/-- C8: the encoder is deterministic in its documented inputs: two calls
with identical target time and identical sync status produce byte-identical
output. -/
theorem C8_deterministic (t1 t2 : Tm) (s1 s2 : TimeStatus)
    (ht : t1 = t2) (hs : s1 = s2) :
    IF482_Out t1 s1 = IF482_Out t2 s2 := by
  rw [ht, hs]

/-- C8 witness: determinism applied at the concrete input
2016-08-06 17:04:00, status `timeSet`. -/
theorem C8_deterministic_witness :
    IF482_Out ⟨2016, 8, 6, 7, 17, 4, 0⟩ TimeStatus.timeSet
      = IF482_Out ⟨2016, 8, 6, 7, 17, 4, 0⟩ TimeStatus.timeSet :=
  C8_deterministic ⟨2016, 8, 6, 7, 17, 4, 0⟩ ⟨2016, 8, 6, 7, 17, 4, 0⟩
    TimeStatus.timeSet TimeStatus.timeSet rfl rfl

/-- Auxiliary: `join` of a map that produces singleton lists is the map of
the singletons' elements. -/
lemma flatten_map_singleton {α β : Type} (f : α → β) (l : List α) :
    (l.map (fun a => [f a])).flatten = l.map f := by
  induction l with
  | nil => rfl
  | cons a l ih => simp [ih]

/-- Closed form of the upclocking loop: iteration `i` (0-based) emits at
tick `(w + (i+1) * shot) mod 2^32`, encoding `now` at that tick plus
one. -/
lemma upclockIters_fst (shot : Nat) (nowAt : Nat → Nat) :
    ∀ k w : Nat,
      (upclockIters shot nowAt k w).1 =
        (List.range k).map (fun i =>
          Emission.mk ((w + (i + 1) * shot) % W32)
            (nowAt ((w + (i + 1) * shot) % W32) + 1)) := by
  intro k
  induction k with
  | zero => intro w; simp [upclockIters]
  | succ k ih =>
    intro w
    have hstep : ∀ i : Nat,
        ((w + shot) % W32 + (i + 1) * shot) % W32
          = (w + (i + 1 + 1) * shot) % W32 := by
      intro i
      rw [Nat.mod_add_mod]
      congr 1
      ring
    rw [List.range_succ_eq_map]
    simp only [upclockIters, ih ((w + shot) % W32), List.map_cons,
      List.map_map]
    refine List.cons_eq_cons.mpr ⟨?_, ?_⟩
    · simp
    · refine List.map_congr_left ?_
      intro i _
      simp only [Function.comp]
      rw [hstep i]

/-- The upclocking loop performs exactly `k` iterations, hence `k`
emissions. -/
lemma upclockIters_length (shot : Nat) (nowAt : Nat → Nat) (k w : Nat) :
    (upclockIters shot nowAt k w).1.length = k := by
  rw [upclockIters_fst]
  simp

/-- In the upclocking configuration (`PPS > IF482_PULSE_DURATION`) a single
edge notification runs the upclocking loop once. -/
lemma if482_run_upclock (pps shot : Nat) (nowAt : Nat → Nat) (edge : Nat)
    (hk : IF482_PULSE_DURATION < pps) :
    if482_run pps shot nowAt [edge]
      = (upclockIters shot nowAt (pps / IF482_PULSE_DURATION) edge).1 := by
  have h1 : ¬pps = IF482_PULSE_DURATION := by omega
  simp [if482_run, if482_cycle, h1, hk]

/-- In the equal-rate configuration (`PPS == IF482_PULSE_DURATION`) a cycle
is one precise wait to `edge + shot` followed by one emission. -/
lemma if482_cycle_equal (shot : Nat) (nowAt : Nat → Nat) (edge : Nat) :
    if482_cycle 1000 shot nowAt edge
      = ([⟨(edge + shot) % W32, nowAt ((edge + shot) % W32) + 1⟩],
          (edge + shot) % W32) := by
  simp [if482_cycle, IF482_PULSE_DURATION]

/-- Equal-rate run over any edge sequence: one emission per edge, at tick
`(edge + shot) mod 2^32`. -/
lemma if482_run_equal (shot : Nat) (nowAt : Nat → Nat) (edges : List Nat) :
    if482_run 1000 shot nowAt edges
      = edges.map (fun e =>
          Emission.mk ((e + shot) % W32) (nowAt ((e + shot) % W32) + 1)) := by
  unfold if482_run
  have hcyc : (fun e => (if482_cycle 1000 shot nowAt e).1)
      = fun e =>
          [Emission.mk ((e + shot) % W32) (nowAt ((e + shot) % W32) + 1)] := by
    funext e
    rw [if482_cycle_equal]
  rw [hcyc,
    flatten_map_singleton
      (fun e => Emission.mk ((e + shot) % W32) (nowAt ((e + shot) % W32) + 1))
      edges]

/-- C3 counterexample: the claim states the k telegrams of one upclocked
edge encode distinct, strictly increasing seconds.  With `PPS = 4000`
(k = 4), shot time 100 ticks and the wall clock advancing one second per
1000 ticks, a single edge at tick 0 yields four emissions at ticks 100,
200, 300, 400, all encoding the same second 1: the repetitions are spaced
`shotTime` ticks apart, not one second apart, so the encoded second need
not advance. -/
theorem C3_counterexample :
    (if482_run 4000 100 (fun tk => tk / 1000) [0]).map Emission.sec
      = [1, 1, 1, 1] ∧
    ¬List.Pairwise (fun a b => a < b)
        ((if482_run 4000 100 (fun tk => tk / 1000) [0]).map Emission.sec) := by
  decide

/-- C3 (amended): in upclocking mode a single edge notification causes
exactly `PPS / IF482_PULSE_DURATION` emissions, at ticks
`edge + i * shotTime` (mod 2^32); the encoded seconds advance by exactly
one per repetition when the shot time equals the 1000-tick second period
(taking `now()` to advance once per 1000 ticks), and then they are
distinct and strictly increasing — but not for other shot times. -/
theorem C3_upclock (pps shot edge : Nat) (nowAt : Nat → Nat)
    (hk : IF482_PULSE_DURATION < pps)
    (hbound : edge + pps / IF482_PULSE_DURATION * 1000 < W32) :
    (if482_run pps shot nowAt [edge]).length = pps / IF482_PULSE_DURATION ∧
    (if482_run pps 1000 (fun tk => tk / 1000) [edge]).map Emission.sec
      = (List.range (pps / IF482_PULSE_DURATION)).map
          (fun i => edge / 1000 + i + 2) ∧
    List.Pairwise (fun a b => a < b)
      ((if482_run pps 1000 (fun tk => tk / 1000) [edge]).map
        Emission.sec) := by
  have hsec : (if482_run pps 1000 (fun tk => tk / 1000) [edge]).map
      Emission.sec
      = (List.range (pps / IF482_PULSE_DURATION)).map
          (fun i => edge / 1000 + i + 2) := by
    rw [if482_run_upclock pps 1000 (fun tk => tk / 1000) edge hk,
      upclockIters_fst, List.map_map]
    refine List.map_congr_left ?_
    intro i hi
    rw [List.mem_range] at hi
    have hmul : (i + 1) * 1000 ≤ pps / IF482_PULSE_DURATION * 1000 :=
      Nat.mul_le_mul_right 1000 (by omega)
    have hlt : edge + (i + 1) * 1000 < W32 := by omega
    simp only [Function.comp]
    show (edge + (i + 1) * 1000) % W32 / 1000 + 1 = edge / 1000 + i + 2
    rw [Nat.mod_eq_of_lt hlt,
      Nat.add_mul_div_right edge (i + 1) (by norm_num : (0:Nat) < 1000)]
    omega
  refine ⟨?_, hsec, ?_⟩
  · rw [if482_run_upclock pps shot nowAt edge hk, upclockIters_length]
  · rw [hsec, List.pairwise_map]
    exact (List.pairwise_lt_range (pps / IF482_PULSE_DURATION)).imp
      (fun hab => by omega)

/-- C3 witness: the amended statement applied at `PPS = 4000`,
shot time 777, edge tick 0. -/
theorem C3_upclock_witness :
    (if482_run 4000 777 (fun _ => 0) [0]).length
      = 4000 / IF482_PULSE_DURATION ∧
    (if482_run 4000 1000 (fun tk => tk / 1000) [0]).map Emission.sec
      = (List.range (4000 / IF482_PULSE_DURATION)).map
          (fun i => 0 / 1000 + i + 2) ∧
    List.Pairwise (fun a b => a < b)
      ((if482_run 4000 1000 (fun tk => tk / 1000) [0]).map Emission.sec) :=
  C3_upclock 4000 777 0 (fun _ => 0) (by decide) (by decide)

/-- C4 counterexample: the claim states that a pulse period greater than
1000 ticks selects down-clocking (immediate emission at the edge tick).
With `PPS = 2000` and shot time 300 the code instead takes the upclocking
branch: a single edge at tick 0 produces two emissions, at ticks 300 and
600, neither of them at the edge tick. -/
theorem C4_counterexample :
    (if482_run 2000 300 (fun _ => 0) [0]).map Emission.tick = [300, 600] ∧
    (if482_run 2000 300 (fun _ => 0) [0]).map Emission.tick ≠ [0] := by
  decide

/-- C4 (amended): in down-clocking mode — selected when the pulse period is
LESS than 1000 ticks (`PPS < IF482_PULSE_DURATION`) — each edge causes one
immediate emission at the edge tick (zero wait), after which the worker
blocks until `edge + ((shotTime - PPS) mod 2^32)`, i.e. the timing baseline
for the next cycle is adjusted by (shot offset − pulse period) in unsigned
32-bit tick arithmetic, before re-entering the wait-for-next-edge
state. -/
theorem C4_downclock (pps shot edge : Nat) (nowAt : Nat → Nat)
    (hlt : pps < IF482_PULSE_DURATION) :
    if482_cycle pps shot nowAt edge
      = ([⟨edge, nowAt edge + 1⟩],
          (edge + downclockDelay shot pps) % W32) := by
  have h1 : ¬pps = IF482_PULSE_DURATION := by omega
  have h2 : ¬IF482_PULSE_DURATION < pps := by omega
  simp [if482_cycle, h1, h2]

/-- C4 witness: the amended statement applied at `PPS = 900`, shot time
500, edge tick 0. -/
theorem C4_downclock_witness :
    if482_cycle 900 500 (fun _ => 41) 0
      = ([⟨0, 42⟩], (0 + downclockDelay 500 900) % W32) :=
  C4_downclock 900 500 0 (fun _ => 41) (by decide)

/-- C5 counterexample: the claim states the equal-rate emission ticks are
`T0 + 1000 - O`, `T0 + 2000 - O`, ... for transmit allowance `O`.  With the
alignment wait taking 500 ticks and `IF482_OFFSET = 100`, the recorded shot
time is 400, so the edge at tick 1000000 is answered by an emission at tick
1000400, not at `1000000 + 1000 - 100 = 1000900`. -/
theorem C5_counterexample :
    (if482_run 1000 (shotTimeOf 500 100) (fun _ => 0) [1000000]).map
        Emission.tick = [1000400] ∧
    [1000400] ≠ [1000000 + 1000 - 100] := by
  decide

/-- C5 (amended): in equal-rate mode, each cycle's emission tick equals the
notified edge's tick plus the recorded shot offset
`shotTimeOf A O = (A - O) mod 2^32` (`A` = ticks elapsed from worker start
to second-boundary alignment, `O` = transmit allowance `IF482_OFFSET`): for
edges at `T0 + 1000 i` the emission ticks are `T0 + 1000 i + (A - O)`.
They equal the claim's `T0 + 1000 (i+1) - O` exactly when `A = 1000`. -/
theorem C5_equal_rate (T0 A O n : Nat) (nowAt : Nat → Nat)
    (hOA : O ≤ A) (hbound : T0 + 1000 * n + A < W32) :
    (if482_run 1000 (shotTimeOf A O) nowAt
        ((List.range n).map (fun i => T0 + 1000 * i))).map Emission.tick
      = (List.range n).map (fun i => T0 + 1000 * i + (A - O)) ∧
    (A = 1000 →
      (List.range n).map (fun i => T0 + 1000 * i + (A - O))
        = (List.range n).map (fun i => T0 + 1000 * (i + 1) - O)) := by
  have hA : A < W32 := by omega
  have hshot : shotTimeOf A O = A - O := by
    unfold shotTimeOf u32sub
    have hsum : A + W32 - O = W32 + (A - O) := by omega
    rw [hsum, Nat.add_mod_left]
    exact Nat.mod_eq_of_lt (by omega)
  constructor
  · rw [if482_run_equal, hshot, List.map_map, List.map_map]
    refine List.map_congr_left ?_
    intro i hi
    rw [List.mem_range] at hi
    simp only [Function.comp]
    show (T0 + 1000 * i + (A - O)) % W32 = T0 + 1000 * i + (A - O)
    exact Nat.mod_eq_of_lt (by omega)
  · intro hA1000
    refine List.map_congr_left ?_
    intro i _
    omega

/-- C5 witness: the amended statement applied at `T0 = 0`, alignment
elapsed `A = 1000`, transmit allowance `O = 100`, two edges. -/
theorem C5_equal_rate_witness :
    (if482_run 1000 (shotTimeOf 1000 100) (fun _ => 0)
        ((List.range 2).map (fun i => 0 + 1000 * i))).map Emission.tick
      = (List.range 2).map (fun i => 0 + 1000 * i + (1000 - 100)) ∧
    (1000 = 1000 →
      (List.range 2).map (fun i => 0 + 1000 * i + (1000 - 100))
        = (List.range 2).map (fun i => 0 + 1000 * (i + 1) - 100)) :=
  C5_equal_rate 0 1000 100 2 (fun _ => 0) (by decide) (by decide)

/-- C7: in every rate-adaptation mode (equal, upclocking, downclocking),
every telegram the worker emits is encoded from `now() + 1`: the second
passed to the encoder is the wall-clock second at the emission tick plus
one, for every pulse period, shot time, clock and edge sequence. -/
theorem C7_plus_one (pps shot : Nat) (nowAt : Nat → Nat)
    (edges : List Nat) (e : Emission)
    (hmem : e ∈ if482_run pps shot nowAt edges) :
    e.sec = nowAt e.tick + 1 := by
  unfold if482_run at hmem
  rw [List.mem_flatten] at hmem
  obtain ⟨l, hl, hel⟩ := hmem
  rw [List.mem_map] at hl
  obtain ⟨edge, _, rfl⟩ := hl
  unfold if482_cycle at hel
  by_cases h1 : pps = IF482_PULSE_DURATION
  · rw [if_pos h1] at hel
    rw [List.mem_singleton] at hel
    subst hel
    rfl
  · rw [if_neg h1] at hel
    by_cases h2 : IF482_PULSE_DURATION < pps
    · rw [if_pos h2] at hel
      rw [upclockIters_fst, List.mem_map] at hel
      obtain ⟨i, _, rfl⟩ := hel
      rfl
    · rw [if_neg h2] at hel
      rw [List.mem_singleton] at hel
      subst hel
      rfl

/-- C7 witness: the property applied to the emission of a concrete
equal-rate run (edge at tick 5, shot time 0, `now()` equal to the tick
count). -/
theorem C7_plus_one_witness :
    (Emission.mk 5 6).sec = (fun tk : Nat => tk) (Emission.mk 5 6).tick + 1 :=
  C7_plus_one 1000 0 (fun tk : Nat => tk) [5] (Emission.mk 5 6) (by decide)

/-- C9: in the downclocking branch the delay argument `shotTime - PPS` is
computed in unsigned 32-bit `TickType_t` arithmetic: whenever the recorded
shot time is smaller than the pulse period the subtraction wraps to
`2^32 - (PPS - shotTime)`, at least 2^31 ticks (about 25 days at 1000 Hz)
for any realistic period, instead of a zero or negative wait. -/
theorem C9_unsigned_wrap (shot pps : Nat) (h1 : shot < pps)
    (h2 : pps ≤ 2147483648) :
    downclockDelay shot pps = W32 - (pps - shot) ∧
    2147483648 ≤ downclockDelay shot pps := by
  have hW : W32 = 4294967296 := rfl
  unfold downclockDelay u32sub
  rw [hW]
  constructor <;> omega

/-- C9 witness: shot time 500 against pulse period 900 wraps to
2^32 - 400 ticks. -/
theorem C9_unsigned_wrap_witness :
    downclockDelay 500 900 = W32 - (900 - 500) ∧
    2147483648 ≤ downclockDelay 500 900 :=
  C9_unsigned_wrap 500 900 (by decide) (by decide)

/-- C10: `if482_init` returns 1 on every path on which it returns at all;
failure of worker-task creation is handled only by `assert(ClockTask)`,
which aborts instead of returning an error code. -/
theorem C10_init_returns_one (b : Bool) (rc : Int)
    (h : if482_init b = InitResult.ok rc) :
    rc = 1 ∧ if482_init false = InitResult.assertFailed := by
  refine ⟨?_, rfl⟩
  cases b with
  | true =>
    simp [if482_init] at h
    omega
  | false => simp [if482_init] at h

/-- C10 witness: successful task creation returns 1. -/
theorem C10_init_witness :
    (1 : Int) = 1 ∧ if482_init false = InitResult.assertFailed :=
  C10_init_returns_one true 1 rfl
